import Mathlib

/-!
# Verification of the nurikabe reasoning engine (`nrkb_logic.py`)

The Python classes of the source are shallowly embedded:

* cell states are the source's integers (`BLANK = 0`, `ISLAND = -1`,
  `WATER = -2`, `INFER = -3`, a seed is its positive value);
* the mutable object graph (spaces pointing at neighbour spaces, owners
  and owned lists) is replaced by an arena, as the spec's design notes
  suggest: a space is addressed by its position `(x, y)` and the
  `owner` / `owns` / `reachers` attributes store positions;
* the per-space `group` cache of the source is not modelled: the source
  invalidates the cache on every neighbourhood mutation, so recomputing a
  group is observationally equivalent to reading a valid cache (the spec
  makes the same remark: the cache is a speed hack, not semantics);
* a Python expression that can raise (out-of-range list indexing) is
  modelled with `Option`, `none` meaning the call raises.
-/

namespace Nrkb

/-! ## Cell states (module-level constants of the source) -/

def BLANK : Int := 0
def ISLAND : Int := -1
def WATER : Int := -2
def INFER : Int := -3

/-- `GameState = Enum(['OKAY', 'SOLVED', 'ERROR'])`. -/
inductive GameState where
  | OKAY
  | SOLVED
  | ERROR
deriving DecidableEq, Repr

/-- The source's `Type` enum for groups (renamed: `Type` is reserved in Lean). -/
inductive GType where
  | WATER
  | ISLAND
  | INCOMPLETE
  | INVALID_ISLAND
  | LONE_ISLAND
  | LONE_BLANK
  | INVALID_WATER
  | CLOSED_WATER
deriving DecidableEq, Repr

/-! ## Python list indexing

Python list subscripts accept negative indices (counting from the end) and
raise `IndexError` otherwise.  `pyIdx len i` returns the real offset, or
`none` when Python would raise. -/

def pyIdx (len : Nat) (i : Int) : Option Nat :=
  if 0 ≤ i then (if i < (len : Int) then some i.toNat else none)
  else if -i ≤ (len : Int) then some (len - (-i).toNat) else none

/-! ## The `Game` class

`Game` is "little more than an array"; only the dimensions and the state
matrix matter to the engine.  The file-loading constructor path is external
I/O and is out of scope; a `Game` here is any already-built board. -/

structure Game where
  rows : Nat
  cols : Nat
  board : List (List Int)
deriving DecidableEq, Repr

/-- `Game.getState`: bounds-checked read, `BLANK` when out of bounds. -/
def Game.getState (g : Game) (x y : Int) : Int :=
  if y < 0 ∨ y ≥ (g.rows : Int) ∨ x < 0 ∨ x ≥ (g.cols : Int) then BLANK
  else (((g.board.get? y.toNat).getD []).get? x.toNat).getD BLANK

/-- `Game.setState`: *no* bounds check in the source — it evaluates
`self.board[y][x]` directly, so Python list-index semantics apply
(`none` = `IndexError` raised, nothing written).  On success it returns the
updated game and whether a change occurred. -/
def Game.setState (g : Game) (x y state : Int) : Option (Game × Bool) :=
  match pyIdx g.board.length y with
  | none => none
  | some yi =>
    let row := g.board.getD yi []
    match pyIdx row.length x with
    | none => none
    | some xi =>
      let space := row.getD xi BLANK
      if space ≤ BLANK ∧ space ≠ state then
        some ({ g with board := g.board.set yi (row.set xi state) }, true)
      else some (g, false)

theorem pyIdx_eq_none_iff (n : Nat) (i : Int) :
    pyIdx n i = none ↔ (i ≥ (n : Int) ∨ i < -(n : Int)) := by
  unfold pyIdx
  by_cases h0 : 0 ≤ i
  · rw [if_pos h0]
    by_cases hlt : i < (n : Int)
    · rw [if_pos hlt]; simp; omega
    · rw [if_neg hlt]; simp; omega
  · rw [if_neg h0]
    by_cases hle : -i ≤ (n : Int)
    · rw [if_pos hle]; simp; omega
    · rw [if_neg hle]; simp; omega

theorem pyIdx_some_lt (n : Nat) (i : Int) (k : Nat) (h : pyIdx n i = some k) :
    k < n := by
  unfold pyIdx at h
  by_cases h0 : 0 ≤ i
  · rw [if_pos h0] at h
    by_cases hlt : i < (n : Int)
    · rw [if_pos hlt] at h
      have : i.toNat = k := by simpa using h
      omega
    · rw [if_neg hlt] at h; exact absurd h (by simp)
  · rw [if_neg h0] at h
    by_cases hle : -i ≤ (n : Int)
    · rw [if_pos hle] at h
      have hk : n - (-i).toNat = k := by simpa using h
      omega
    · rw [if_neg hle] at h; exact absurd h (by simp)

/-- A 1×1 demonstration board holding a single blank cell. -/
def c8Game : Game := { rows := 1, cols := 1, board := [[BLANK]] }

/-- C8 counterexample.  The claim says `setState` "fails without raising and
without modifying any cell" for every out-of-bounds coordinate.  In the
source, `setState` has no bounds check: `(0, 1)` on a 1×1 board raises
`IndexError` (modelled `none`), and `(-1, 0)` wraps around Python-style and
*does* modify the cell `(0, 0)`. -/
theorem c8_counterexample :
    c8Game.setState 0 1 WATER = none ∧
    c8Game.setState (-1) 0 WATER = some ({ c8Game with board := [[WATER]] }, true) ∧
    ({ c8Game with board := [[WATER]] }).board ≠ c8Game.board := by
  decide

/-- C8 amended: `getState` returns `BLANK` for every out-of-bounds
coordinate, but `setState` is not out-of-bounds safe: for a coordinate past
the positive end (`y ≥ rows`, or `y` in range and `x ≥ cols` — or indices
below the negative wrap range) it raises `IndexError`; negative coordinates
inside the wrap range silently address the wrapped cell (see the
counterexample). -/
theorem c8_amended (g : Game) (x y state : Int)
    (hrows : g.board.length = g.rows)
    (hcols : ∀ row ∈ g.board, row.length = g.cols) :
    (¬ (0 ≤ x ∧ x < (g.cols : Int) ∧ 0 ≤ y ∧ y < (g.rows : Int)) →
      g.getState x y = BLANK) ∧
    (y ≥ (g.rows : Int) ∨ y < -(g.rows : Int) ∨ x ≥ (g.cols : Int) ∨ x < -(g.cols : Int) →
      g.setState x y state = none) := by
  constructor
  · intro h
    unfold Game.getState
    by_cases hy0 : y < 0
    · simp [hy0]
    · by_cases hyr : y ≥ (g.rows : Int)
      · simp [hyr]
      · by_cases hx0 : x < 0
        · simp [hx0]
        · by_cases hxc : x ≥ (g.cols : Int)
          · simp [hxc]
          · exact absurd ⟨not_lt.mp hx0, not_le.mp hxc, not_lt.mp hy0, not_le.mp hyr⟩ h
  · intro h
    unfold Game.setState
    by_cases hy : y ≥ (g.rows : Int) ∨ y < -(g.rows : Int)
    · have : pyIdx g.board.length y = none := by
        rw [pyIdx_eq_none_iff, hrows]; exact hy
      rw [this]
    · have hx : x ≥ (g.cols : Int) ∨ x < -(g.cols : Int) := by tauto
      cases hidx : pyIdx g.board.length y with
      | none => rfl
      | some yi =>
        have hyi : yi < g.board.length := pyIdx_some_lt _ _ _ hidx
        have hrow : g.board.getD yi [] ∈ g.board := by
          rw [List.getD_eq_getElem _ _ hyi]
          exact g.board.getElem_mem hyi
        have hlen : (g.board.getD yi []).length = g.cols := hcols _ hrow
        have : pyIdx (g.board.getD yi []).length x = none := by
          rw [pyIdx_eq_none_iff, hlen]; exact hx
        simp only [this]

/-- Witness for `c8_amended` at the 1×1 demonstration board and the concrete
out-of-bounds coordinate `(5, 7)`. -/
theorem c8_amended_witness :
    c8Game.getState 5 7 = BLANK ∧ c8Game.setState 5 7 WATER = none := by
  have h := c8_amended c8Game 5 7 WATER (by decide) (by decide)
  exact ⟨h.1 (by decide), h.2 (by decide)⟩


/-! ## Spaces and the grid

A `Space` keeps the mutable per-cell attributes of the source's `Space`
class.  The `tag` attribute (BFS visit marking, always reset to `False`
before a traversal returns) is modelled as the local `tagged` list of each
traversal; the `group` cache is not modelled (see the header). -/

abbrev Pos := Nat × Nat

structure Space where
  state : Int
  owner : Option Pos
  owns : List Pos
  reachers : Option (List Pos)
  flag : Option Int
deriving DecidableEq, Repr

instance : Inhabited Space :=
  ⟨{ state := BLANK, owner := none, owns := [], reachers := some [], flag := none }⟩

/-- `Space.__init__`: a seed (positive state) owns itself and has no
reacher list; every other cell starts unowned with an empty reacher list. -/
def Space.init (p : Pos) (state : Int) : Space :=
  if state > 0 then
    { state := state, owner := some p, owns := [p], reachers := none, flag := none }
  else
    { state := state, owner := none, owns := [], reachers := some [], flag := none }

def Space.is_seed (sp : Space) : Bool := sp.state > 0

def Space.is_island (sp : Space) : Bool := sp.state > 0 || sp.state == ISLAND

structure Grid where
  rows : Nat
  cols : Nat
  s : List (List Space)
  seeds : List Pos
  target : Int
  solving : Bool
deriving DecidableEq, Repr

/-- Board lookup used while building a grid from a game. -/
def boardGet (board : List (List Int)) (x y : Nat) : Int :=
  ((board[y]?.getD [])[x]?).getD BLANK

/-- `Grid.__init__`, from the state matrix of a game: build the spaces,
collect the seeds in scan order, compute `target`. -/
def Grid.ofBoard (rows cols : Nat) (board : List (List Int)) : Grid :=
  let seeds := (List.range rows).flatMap (fun y =>
    (List.range cols).filterMap (fun x =>
      if boardGet board x y > 0 then some ((x, y) : Pos) else none))
  { rows := rows
    cols := cols
    s := (List.range rows).map (fun y =>
      (List.range cols).map (fun x => Space.init (x, y) (boardGet board x y)))
    seeds := seeds
    target := (rows * cols : Int) - (seeds.map (fun p => boardGet board p.1 p.2)).sum
    solving := false }

def Grid.ofGame (game : Game) : Grid := Grid.ofBoard game.rows game.cols game.board

/-- Space lookup (defaulting on out-of-range positions, which well-formed
callers never produce). -/
def Grid.sp (g : Grid) (p : Pos) : Space := ((g.s[p.2]?.getD [])[p.1]?).getD default

def Grid.state (g : Grid) (p : Pos) : Int := (g.sp p).state

def Grid.setSp (g : Grid) (p : Pos) (a : Space) : Grid :=
  { g with s := g.s.set p.2 ((g.s[p.2]?.getD []).set p.1 a) }

def Grid.modifySp (g : Grid) (p : Pos) (f : Space → Space) : Grid :=
  g.setSp p (f (g.sp p))

/-- `Space.set_neighbors` order: left, down, right, up. -/
def Grid.nbrs (g : Grid) (p : Pos) : List Pos :=
  (if p.1 > 0 then [((p.1 - 1, p.2) : Pos)] else []) ++
  (if p.2 < g.rows - 1 then [((p.1, p.2 + 1) : Pos)] else []) ++
  (if p.1 < g.cols - 1 then [((p.1 + 1, p.2) : Pos)] else []) ++
  (if p.2 > 0 then [((p.1, p.2 - 1) : Pos)] else [])

/-- `Space.distance`: manhattan distance. -/
def dist (p q : Pos) : Int := ((p.1 : Int) - q.1).natAbs + ((p.2 : Int) - q.2).natAbs

/-- `Grid.is_puddle`: is `(x, y)` the upper-left corner of a 2×2 all-water
square?  Takes integers because callers probe `x-1` / `y-1`. -/
def Grid.is_puddle (g : Grid) (x y : Int) : Bool :=
  if x < 0 || x ≥ (g.cols : Int) - 1 || y < 0 || y ≥ (g.rows : Int) - 1 then false
  else
    g.state (x.toNat, y.toNat) == WATER && g.state (x.toNat + 1, y.toNat) == WATER &&
    g.state (x.toNat, y.toNat + 1) == WATER && g.state (x.toNat + 1, y.toNat + 1) == WATER

/-- `Grid.get_blanks`, in scan order. -/
def Grid.get_blanks (g : Grid) : List Pos :=
  (List.range g.rows).flatMap (fun y =>
    (List.range g.cols).filterMap (fun x =>
      if g.state (x, y) = BLANK then some ((x, y) : Pos) else none))

/-- `Space.set_owner`: point `p` at its owner `q` and append `p` to
`q.owns` (the source appends unconditionally). -/
def Grid.set_owner (g : Grid) (p q : Pos) : Grid :=
  (g.modifySp p (fun sp => { sp with owner := some q, reachers := none })).modifySp q
    (fun sq => { sq with owns := sq.owns ++ [p] })

/-- `Space.forget_group` only clears the group cache, which this model does
not carry; it is the identity here. -/
def Grid.forget_group (g : Grid) (_p : Pos) : Grid := g

/-- `Space.forget_reachers`: reset the ownership bookkeeping rooted at `p`,
mirroring the source's aliasing-sensitive order of assignments. -/
def Grid.forget_reachers (g : Grid) (p : Pos) : Grid :=
  if (g.sp p).is_seed then
    ((g.sp p).owns.foldl (fun acc q =>
        acc.modifySp q (fun sq =>
          { sq with owner := none, reachers := some [], owns := [] })) g).modifySp p
      (fun sq => { sq with reachers := none, owner := some p, owns := [p] })
  else
    (((g.sp p).owns.foldl (fun acc q =>
        acc.modifySp q (fun sq =>
          { sq with owner := none, reachers := some [], owns := [] }))
      (g.modifySp p (fun sq => { sq with reachers := some [], owner := none }))).modifySp p
      (fun sq => { sq with owns := [] }))

/-! ## Groups and `find_group` -/

structure Group where
  spaces : List Pos
  dofs : List Pos
  walls : List Pos
  numbers : List Pos
  type : GType
  inferred : Bool
deriving DecidableEq, Repr

def Group.start : Group :=
  { spaces := [], dofs := [], walls := [], numbers := [],
    type := GType.INCOMPLETE, inferred := false }

/-- The source's `queue.put`: append only if not already present. -/
def qput (q : List Pos) (p : Pos) : List Pos := if p ∈ q then q else q ++ [p]

/-- One neighbour classification of the water-mode flood of `find_group`:
tag the neighbour, then sort it into `spaces` (water, crawled further),
`dofs` (blank) or `walls` (anything else). -/
def waterStep (g : Grid) (st : List Pos × List Pos × Group) (n : Pos) :
    List Pos × List Pos × Group :=
  let (queue, tagged, grp) := st
  if n ∈ tagged then st
  else
    let tagged := n :: tagged
    if g.state n = WATER then
      (qput queue n, tagged, { grp with spaces := grp.spaces ++ [n] })
    else if g.state n = BLANK then
      (queue, tagged, { grp with dofs := grp.dofs ++ [n] })
    else
      (queue, tagged, { grp with walls := grp.walls ++ [n] })

/-- The water-mode crawl loop of `find_group` (fuelled; `rows*cols + 1`
steps always drain the queue).  Also returns the final tagged set. -/
def waterCrawl (g : Grid) : Nat → List Pos → List Pos → Group → Group × List Pos
  | 0, _, tagged, grp => (grp, tagged)
  | _ + 1, [], tagged, grp => (grp, tagged)
  | fuel + 1, u :: queue, tagged, grp =>
    let st := (g.nbrs u).foldl (waterStep g) (queue, tagged, grp)
    waterCrawl g fuel st.1 st.2.1 st.2.2

/-- One neighbour classification of the island-mode flood of `find_group`:
water becomes a wall; a seed goes to `spaces` and `numbers` and is crawled;
an island mark goes to `spaces` and is crawled; anything else (blank or
infer) goes to `dofs` and is crawled only in inferred mode. -/
def islandStep (g : Grid) (infer : Bool) (st : List Pos × List Pos × Group) (n : Pos) :
    List Pos × List Pos × Group :=
  let (queue, tagged, grp) := st
  if n ∈ tagged then st
  else
    let tagged := n :: tagged
    if g.state n = WATER then
      (queue, tagged, { grp with walls := grp.walls ++ [n] })
    else if (g.sp n).is_seed then
      (qput queue n, tagged,
        { grp with spaces := grp.spaces ++ [n], numbers := grp.numbers ++ [n] })
    else if g.state n = ISLAND then
      (qput queue n, tagged, { grp with spaces := grp.spaces ++ [n] })
    else
      (if infer then qput queue n else queue, tagged, { grp with dofs := grp.dofs ++ [n] })

/-- The island-mode crawl loop of `find_group`. -/
def islandCrawl (g : Grid) (infer : Bool) :
    Nat → List Pos → List Pos → Group → Group × List Pos
  | 0, _, tagged, grp => (grp, tagged)
  | _ + 1, [], tagged, grp => (grp, tagged)
  | fuel + 1, u :: queue, tagged, grp =>
    let st := (g.nbrs u).foldl (islandStep g infer) (queue, tagged, grp)
    islandCrawl g infer fuel st.1 st.2.1 st.2.2

/-- Strict-mode ownership propagation of `find_group` (`remember` path):
the first member whose owner is a seed donates that owner to every member
that does not already have it. -/
def propagateOwner (g : Grid) (spaces : List Pos) : Grid :=
  match spaces.find? (fun q => match (g.sp q).owner with
      | some o => (g.sp o).is_seed
      | none => false) with
  | none => g
  | some q =>
    let o := ((g.sp q).owner).getD q
    spaces.foldl (fun acc r => if (acc.sp r).owner ≠ some o then acc.set_owner r o else acc) g

/-- `Space.find_group`.  Returns the group — `none` stands for the source
returning its absent cached group (`self.group`, i.e. Python `None`) for a
blank cell in strict mode — together with the mutated grid: inferred mode
may promote the dofs of an exactly-complete island to `INFER`, and strict
`remember` mode propagates ownership. -/
def find_group (g : Grid) (p : Pos) (infer remember : Bool) : Option Group × Grid :=
  if ¬ infer ∧ g.state p = BLANK then (none, g)
  else if g.state p = WATER then
    let grp0 : Group := { Group.start with inferred := infer, spaces := [p] }
    let res := waterCrawl g (g.rows * g.cols + 1) [p] [p] grp0
    let grp := res.1
    let t1 := if grp.dofs.length = 0 then GType.CLOSED_WATER else GType.WATER
    let t2 := if grp.spaces.any (fun q => g.is_puddle (q.1 : Int) (q.2 : Int)) then
        GType.INVALID_WATER else t1
    (some { grp with type := t2 }, g)
  else
    let grp0 : Group :=
      { spaces := if g.state p = BLANK then [] else [p]
        dofs := if g.state p = BLANK then [p] else []
        walls := []
        numbers := if (g.sp p).is_seed then [p] else []
        type := GType.INCOMPLETE
        inferred := infer }
    let res := islandCrawl g infer (g.rows * g.cols + 1) [p] [p] grp0
    let grpA := res.1
    let g1 := if ¬ infer ∧ remember then propagateOwner g grpA.spaces else g
    let size := if infer then grpA.dofs.length + grpA.spaces.length else grpA.spaces.length
    let seed_num := grpA.numbers.length
    if seed_num = 0 then
      if grpA.spaces.length > 0 then
        (some { grpA with type :=
          if infer then GType.INVALID_ISLAND else GType.LONE_ISLAND }, g1)
      else (some { grpA with type := GType.LONE_BLANK }, g1)
    else if 1 < seed_num then
      if ¬ infer then (some { grpA with type := GType.INVALID_ISLAND }, g1)
      else if (grpA.numbers.map (fun q => g1.state q)).sum + 1 > (size : Int) then
        (some { grpA with type := GType.INVALID_ISLAND }, g1)
      else (some { grpA with type := GType.INCOMPLETE }, g1)
    else
      let num := g1.state (grpA.numbers.headD p)
      if (grpA.spaces.length : Int) > num then
        (some { grpA with type := GType.INVALID_ISLAND }, g1)
      else if (size : Int) = num then
        if infer then
          let g2 := grpA.dofs.foldl
            (fun acc d => acc.modifySp d (fun sp => { sp with state := INFER })) g1
          (some { grpA with
                  type := GType.ISLAND
                  spaces := grpA.spaces ++ grpA.dofs
                  dofs := [] }, g2)
        else (some { grpA with type := GType.ISLAND }, g1)
      else if (size : Int) > num then
        (some { grpA with type := GType.INCOMPLETE }, g1)
      else
        (some { grpA with type :=
          if infer then GType.INVALID_ISLAND else GType.INCOMPLETE }, g1)


/-! ## The validators `Grid.check` and `Grid.status`

Both run inferred-mode group analysis over every cell, remembering the
groups already seen in a temporary matrix (`infer_groups` in the source,
the `marked` list here).  `status` returns at the first error; `check`
classifies every group into buckets and decides at the end (its
`controller.flagGame` drawing calls are external output and not modelled).
Both *mutate* the grid: the strict seed sweep propagates ownership, and the
inferred island sweep promotes the dofs of exactly-complete islands to
`INFER`.  `Except` carries the mutated grid out of an early `ERROR`. -/

def Grid.allPos (g : Grid) : List Pos :=
  (List.range g.rows).flatMap (fun y => (List.range g.cols).map (fun x => ((x, y) : Pos)))

/-- Seeds sweep of `Grid.status`: any strict seed group of type
`INVALID_ISLAND` is an immediate `ERROR`. -/
def statusSeeds : Grid → List Pos → Except Grid Grid
  | g, [] => .ok g
  | g, sd :: rest =>
    let res := find_group g sd false true
    match res.1 with
    | some grp =>
      if grp.type = GType.INVALID_ISLAND then .error res.2 else statusSeeds res.2 rest
    | none => statusSeeds res.2 rest

/-- Island sweep of `Grid.status` over the scan-ordered positions:
inferred groups for non-water cells not seen before.  Accumulates the
`marked` matrix and the `incomplete` bit. -/
def statusIsl : Grid → List Pos → List Pos → Bool → Except Grid (Grid × List Pos × Bool)
  | g, [], marked, inc => .ok (g, marked, inc)
  | g, p :: rest, marked, inc =>
    if g.state p ≠ WATER ∧ p ∉ marked then
      let res := find_group g p true false
      match res.1 with
      | some grp =>
        if grp.type = GType.INVALID_ISLAND then .error res.2
        else statusIsl res.2 rest (marked ++ grp.spaces ++ grp.dofs)
          (inc || grp.type == GType.INCOMPLETE || grp.type == GType.LONE_BLANK)
      | none => statusIsl res.2 rest marked inc
    else statusIsl g rest marked inc

/-- Water sweep of `Grid.status`: counts water groups, errors on invalid
water and on closed water of the wrong size, remembers whether the closed
water of exactly `target` cells was seen. -/
def statusWat : Grid → List Pos → List Pos → Nat → Bool → Except Grid (Grid × Nat × Bool)
  | g, [], _marked, wc, tacq => .ok (g, wc, tacq)
  | g, p :: rest, marked, wc, tacq =>
    if g.state p = WATER ∧ p ∉ marked then
      let res := find_group g p true false
      match res.1 with
      | some grp =>
        if grp.type = GType.INVALID_WATER then .error res.2
        else if grp.type = GType.CLOSED_WATER then
          if (grp.spaces.length : Int) = g.target then
            statusWat res.2 rest (marked ++ grp.spaces) (wc + 1) true
          else .error res.2
        else statusWat res.2 rest (marked ++ grp.spaces) (wc + 1) tacq
      | none => statusWat res.2 rest marked (wc + 1) tacq
    else statusWat g rest marked wc tacq

/-- `Grid.status`, the solver-facing validator. -/
def Grid.status (g : Grid) : GameState × Grid :=
  match statusSeeds g g.seeds with
  | .error g' => (GameState.ERROR, g')
  | .ok g1 =>
    match statusIsl g1 g1.allPos [] false with
    | .error g' => (GameState.ERROR, g')
    | .ok (g2, marked, inc) =>
      match statusWat g2 g2.allPos marked 0 false with
      | .error g' => (GameState.ERROR, g')
      | .ok (g3, wc, tacq) =>
        if tacq ∧ wc = 1 then (GameState.SOLVED, g3)
        else if ¬ tacq ∧ inc then (GameState.OKAY, g3)
        else (GameState.ERROR, g3)

/-- Seeds sweep of `Grid.check`: collect the strict seed groups of type
`INVALID_ISLAND` (the `CROWDED_ISLAND` bucket). -/
def checkSeeds : Grid → List Pos → List Group → Grid × List Group
  | g, [], crowd => (g, crowd)
  | g, sd :: rest, crowd =>
    let res := find_group g sd false true
    match res.1 with
    | some grp =>
      checkSeeds res.2 rest
        (if grp.type = GType.INVALID_ISLAND then crowd ++ [grp] else crowd)
    | none => checkSeeds res.2 rest crowd

/-- Island sweep of `Grid.check`: every inferred group of a fresh non-water
cell is appended to the bucket dictionary (modelled as a tagged list). -/
def checkIsl : Grid → List Pos → List Pos → List (GType × Group) →
    Grid × List Pos × List (GType × Group)
  | g, [], marked, dict => (g, marked, dict)
  | g, p :: rest, marked, dict =>
    if g.state p ≠ WATER ∧ p ∉ marked then
      let res := find_group g p true false
      match res.1 with
      | some grp =>
        checkIsl res.2 rest (marked ++ grp.spaces ++ grp.dofs) (dict ++ [(grp.type, grp)])
      | none => checkIsl res.2 rest marked dict
    else checkIsl g rest marked dict

/-- Water sweep of `Grid.check`: counts water groups and detects the
target-sized closed water. -/
def checkWat : Grid → List Pos → List Pos → List (GType × Group) → Nat → Bool →
    Grid × List (GType × Group) × Nat × Bool
  | g, [], _marked, dict, wc, tacq => (g, dict, wc, tacq)
  | g, p :: rest, marked, dict, wc, tacq =>
    if g.state p = WATER ∧ p ∉ marked then
      let res := find_group g p true false
      match res.1 with
      | some grp =>
        checkWat res.2 rest (marked ++ grp.spaces) (dict ++ [(grp.type, grp)]) (wc + 1)
          (tacq || (grp.type == GType.CLOSED_WATER &&
                    (grp.spaces.length : Int) == g.target))
      | none => checkWat res.2 rest marked dict (wc + 1) tacq
    else checkWat g rest marked dict wc tacq

/-- `Grid.check`, the user-facing validator (flag drawing omitted — it is
output to the external controller and does not affect the verdict). -/
def Grid.check (g : Grid) : GameState × Grid :=
  let sres := checkSeeds g g.seeds []
  let ires := checkIsl sres.1 sres.1.allPos [] []
  let wres := checkWat ires.1 ires.1.allPos ires.2.1 ires.2.2 0 false
  let dict := wres.2.1
  let island_error :=
    (dict.filter (fun e => e.1 == GType.INVALID_ISLAND)).length ≠ 0 ∨ sres.2.length ≠ 0
  let incomplete :=
    (dict.filter (fun e => e.1 == GType.INCOMPLETE)).length ≠ 0 ∨
    (dict.filter (fun e => e.1 == GType.LONE_BLANK)).length ≠ 0
  let water_error :=
    (dict.filter (fun e => e.1 == GType.CLOSED_WATER)).length ≠ 0 ∨
    (dict.filter (fun e => e.1 == GType.INVALID_WATER)).length ≠ 0
  let wc := wres.2.2.1
  let tacq := wres.2.2.2
  if ¬ island_error ∧ tacq ∧ wc = 1 then (GameState.SOLVED, wres.1)
  else if ¬ island_error ∧ ¬ water_error ∧ incomplete then (GameState.OKAY, wres.1)
  else (GameState.ERROR, wres.1)

/-! ## C7: the 1×1 board with a single seed of value 1 -/

/-- The 1×1 grid built from the board whose single cell is a seed of 1. -/
def gridOne : Grid := Grid.ofBoard 1 1 [[1]]

/-- C7 counterexample.  The claim says this grid is `SOLVED` immediately
after construction; both validators in fact return `ERROR`: its `target`
is `1*1 - 1 = 0`, and the `SOLVED` verdict requires a closed water group
of exactly `target` cells and `water_count == 1`, which no grid with
`target = 0` can produce. -/
theorem c7_counterexample :
    gridOne.status.1 ≠ GameState.SOLVED ∧ gridOne.check.1 ≠ GameState.SOLVED := by
  decide

/-- C7 amended: immediately after construction the validator classifies the
1×1 single-seed grid as `ERROR` (not `SOLVED`): `target = 0`, so no
target-sized closed water group can be found, `target_acquired` stays
false, and with no incomplete group the fall-through verdict is `ERROR`. -/
theorem c7_theorem :
    gridOne.status.1 = GameState.ERROR ∧ gridOne.check.1 = GameState.ERROR := by
  decide

/-! ## The solver state and `alter`

`Grid.solve` keeps a work queue `q` (the uniqueness-enforcing `queue`
class) and pushes change events to the controller.  `St` bundles the grid
with the queue, the emitted event stream and whether a controller is
attached. -/

structure St where
  grid : Grid
  q : List Pos
  events : List (Nat × Nat × Int)
  controller : Bool
deriving DecidableEq, Repr

/-- `alter(space, state, known_owner)` — every mutation of the solver flows
through this function.  Mirrors the source line by line:

1. enqueue every neighbour, then the cell itself (before anything else);
2. return if neither state nor owner would change;
3. write the state; forget the cached groups (a no-op here); the source's
   `controller.queueChange` call sits *inside* the neighbour loop, so one
   event per neighbour is emitted when a controller is attached and
   `solving` is set;
4. ownership: an explicit `known_owner` wins; water owns itself; a new
   island looks for an owner through its strict group (whose `remember`
   computation itself propagates ownership) or its sole reacher.

`alterOwner` is step 4 (source lines 585–599), factored out. -/
def alterOwner (g : Grid) (p : Pos) (state : Int) (known_owner : Option Pos) : Grid :=
  match known_owner with
  | some o => g.set_owner p o
  | none =>
    if state = WATER then g.set_owner p p
    else if state = ISLAND then
      let res := find_group g p false true
      match res.1 with
      | some grp =>
        let g4 := res.2
        if (g4.sp p).owner = none then
          if grp.numbers ≠ [] then
            grp.spaces.foldl (fun acc r => acc.set_owner r (grp.numbers.headD p)) g4
          else if ((g4.sp p).reachers.getD []).length = 1 then
            g4.set_owner p (((g4.sp p).reachers.getD []).headD p)
          else g4
        else g4
      | none => res.2
    else g

def alter (st : St) (p : Pos) (state : Int) (known_owner : Option Pos) : St :=
  let q1 := qput ((st.grid.nbrs p).foldl qput st.q) p
  if st.grid.state p = state ∧ known_owner = (st.grid.sp p).owner then
    { st with q := q1 }
  else
    let g1 := if st.grid.state p ≠ state then
        st.grid.modifySp p (fun sp => { sp with state := state }) else st.grid
    let g2 := (st.grid.nbrs p).foldl Grid.forget_group (g1.forget_group p)
    let evs := if st.controller ∧ st.grid.solving then
        st.events ++ (st.grid.nbrs p).map (fun _ => (p.1, p.2, state))
      else st.events
    { grid := alterOwner g2 p state known_owner, q := q1, events := evs,
      controller := st.controller }

/-- `save_game`: snapshot the per-cell states into a `Game`. -/
def save_game (g : Grid) : Game :=
  { rows := g.rows
    cols := g.cols
    board := (List.range g.rows).map (fun y =>
      (List.range g.cols).map (fun x => g.state (x, y))) }

/-- One cell of `reset_game`: restore the state (emitting a change event if
it reverts), forget the cached group, forget the reacher bookkeeping. -/
def resetCell (old : Game) (st : St) (p : Pos) : St :=
  let old_state := boardGet old.board p.1 p.2
  let st1 := if st.grid.state p ≠ old_state then
      { st with
        grid := st.grid.modifySp p (fun sp => { sp with state := old_state })
        events := if st.controller ∧ st.grid.solving then
            st.events ++ [(p.1, p.2, old_state)]
          else st.events }
    else st
  { st1 with grid := (st1.grid.forget_group p).forget_reachers p }

/-- `reset_game`: restore a previously saved snapshot cell by cell in scan
order. -/
def reset_game (st : St) (old : Game) : St :=
  st.grid.allPos.foldl (resetCell old) st

/-! ## Basic update lemmas for the grid arena -/

theorem foldl_obs_pres {α β : Type} (O : Grid → β) (f : Grid → α → Grid)
    (h : ∀ g a, O (f g a) = O g) :
    ∀ (l : List α) (g : Grid), O (l.foldl f g) = O g := by
  intro l
  induction l with
  | nil => intro g; rfl
  | cons a l ih => intro g; rw [List.foldl_cons, ih, h]

theorem foldl_pres_prop {α β : Type} (P : β → Prop) (f : β → α → β)
    (h : ∀ b a, P b → P (f b a)) :
    ∀ (l : List α) (b : β), P b → P (l.foldl f b) := by
  intro l
  induction l with
  | nil => intro b hb; exact hb
  | cons a l ih => intro b hb; exact ih _ (h _ _ hb)

/-- The grid attributes no space-level operation ever changes, plus the
outer length of the space matrix. -/
def Grid.frame (g : Grid) : Nat × Nat × Nat × List Pos × Int × Bool :=
  (g.rows, g.cols, g.s.length, g.seeds, g.target, g.solving)

@[simp] theorem Grid.frame_setSp (g : Grid) (p : Pos) (a : Space) :
    (g.setSp p a).frame = g.frame := by
  simp [Grid.setSp, Grid.frame]

@[simp] theorem Grid.frame_modifySp (g : Grid) (p : Pos) (f : Space → Space) :
    (g.modifySp p f).frame = g.frame := Grid.frame_setSp ..

theorem Grid.rowLen_setSp (g : Grid) (p : Pos) (a : Space) (i : Nat) :
    (((g.setSp p a).s[i]?).getD []).length = ((g.s[i]?).getD []).length := by
  show (((g.s.set p.2 ((g.s[p.2]?.getD []).set p.1 a))[i]?).getD []).length = _
  by_cases h : p.2 = i
  · subst h
    by_cases h2 : p.2 < g.s.length
    · rw [List.getElem?_set_self']
      rw [List.getElem?_eq_getElem h2]
      simp [List.getElem?_eq_getElem h2]
    · rw [List.getElem?_set_self']
      rw [List.getElem?_eq_none (by omega)]
      rfl
  · rw [List.getElem?_set_ne h]

theorem Grid.rowLen_modifySp (g : Grid) (p : Pos) (f : Space → Space) (i : Nat) :
    (((g.modifySp p f).s[i]?).getD []).length = ((g.s[i]?).getD []).length :=
  Grid.rowLen_setSp ..

/-- Master read-after-write lemma for the space matrix. -/
theorem Grid.sp_setSp (g : Grid) (p q : Pos) (a : Space) :
    (g.setSp p a).sp q =
      if q = p ∧ p.2 < g.s.length ∧ p.1 < ((g.s[p.2]?).getD []).length then a
      else g.sp q := by
  obtain ⟨px, py⟩ := p
  obtain ⟨qx, qy⟩ := q
  show (((g.s.set py ((g.s[py]?.getD []).set px a))[qy]?.getD [])[qx]?).getD default = _
  by_cases hy : py = qy
  · subst hy
    cases hrow : g.s[py]? with
    | none =>
      have hge : g.s.length ≤ py := by
        by_contra hlt
        rw [List.getElem?_eq_getElem (by omega)] at hrow
        exact absurd hrow (by simp)
      simp only [hrow, Option.getD_none]
      rw [List.getElem?_eq_none (l := g.s.set py (List.set [] px a)) (n := py)
        (by rw [List.length_set]; exact hge)]
      rw [if_neg (by intro hcon; omega)]
      unfold Grid.sp
      simp [hrow]
    | some row =>
      have hlt : py < g.s.length := by
        by_contra hge
        rw [List.getElem?_eq_none (by omega)] at hrow
        exact absurd hrow (by simp)
      simp only [hrow, Option.getD_some]
      rw [List.getElem?_set_eq_of_lt _ (by simpa using hlt)]
      show ((row.set px a)[qx]?).getD default = _
      by_cases hx : px = qx
      · subst hx
        by_cases hc : px < row.length
        · rw [List.getElem?_set_eq_of_lt _ hc]
          rw [if_pos ⟨rfl, hlt, hc⟩]
          rfl
        · rw [List.getElem?_eq_none (by rw [List.length_set]; omega)]
          rw [if_neg (by intro hcon; exact hc hcon.2.2)]
          unfold Grid.sp
          simp only [hrow, Option.getD_some]
          rw [List.getElem?_eq_none (by omega)]
      · rw [List.getElem?_set_ne hx]
        rw [if_neg (by intro hcon; exact hx (congrArg Prod.fst hcon.1).symm)]
        unfold Grid.sp
        simp only [hrow, Option.getD_some]
  · rw [List.getElem?_set_ne hy]
    rw [if_neg (by intro hcon; exact hy (congrArg Prod.snd hcon.1).symm)]
    rfl

theorem Grid.sp_setSp_ne (g : Grid) (p q : Pos) (a : Space) (h : q ≠ p) :
    (g.setSp p a).sp q = g.sp q := by
  rw [Grid.sp_setSp]
  simp [h]

theorem Grid.sp_modifySp (g : Grid) (p q : Pos) (f : Space → Space) :
    (g.modifySp p f).sp q =
      if q = p ∧ p.2 < g.s.length ∧ p.1 < ((g.s[p.2]?).getD []).length then f (g.sp p)
      else g.sp q := Grid.sp_setSp ..

theorem Grid.sp_modifySp_ne (g : Grid) (p q : Pos) (f : Space → Space) (h : q ≠ p) :
    (g.modifySp p f).sp q = g.sp q := Grid.sp_setSp_ne _ _ _ _ h

/-- The row lengths of the space matrix, as a single observation. -/
def Grid.rowLens (g : Grid) : List Nat := g.s.map List.length

theorem Grid.rowLens_setSp (g : Grid) (p : Pos) (a : Space) :
    (g.setSp p a).rowLens = g.rowLens := by
  apply List.ext_getElem?
  intro i
  show ((g.s.set p.2 ((g.s[p.2]?.getD []).set p.1 a)).map List.length)[i]? =
    (g.s.map List.length)[i]?
  rw [List.getElem?_map, List.getElem?_map]
  by_cases h : p.2 = i
  · subst h
    cases hrow : g.s[p.2]? with
    | none =>
      have : g.s.length ≤ p.2 := by
        by_contra hlt
        rw [List.getElem?_eq_getElem (by omega)] at hrow
        exact absurd hrow (by simp)
      rw [List.getElem?_eq_none (by rw [List.length_set]; omega)]
    | some row =>
      have hlt : p.2 < g.s.length := by
        by_contra hge
        rw [List.getElem?_eq_none (by omega)] at hrow
        exact absurd hrow (by simp)
      rw [List.getElem?_set_eq_of_lt _ (by simpa using hlt)]
      simp
  · rw [List.getElem?_set_ne h]

theorem Grid.rowLens_modifySp (g : Grid) (p : Pos) (f : Space → Space) :
    (g.modifySp p f).rowLens = g.rowLens := Grid.rowLens_setSp ..

/-- Preservation of a `modifySp`-stable observation by `set_owner`. -/
theorem Grid.obs_set_owner {β : Type} (O : Grid → β)
    (h : ∀ g p f, O (g.modifySp p f) = O g) (g : Grid) (a b : Pos) :
    O (g.set_owner a b) = O g := by
  unfold Grid.set_owner
  rw [h, h]

/-- Preservation of a `modifySp`-stable observation by `forget_reachers`. -/
theorem Grid.obs_forget_reachers {β : Type} (O : Grid → β)
    (h : ∀ g p f, O (g.modifySp p f) = O g) (g : Grid) (p : Pos) :
    O (g.forget_reachers p) = O g := by
  unfold Grid.forget_reachers
  by_cases hs : (g.sp p).is_seed = true
  · rw [if_pos hs, h]
    exact foldl_obs_pres O _ (fun g a => h g a _) _ g
  · rw [if_neg hs, h]
    rw [foldl_obs_pres O _ (fun g a => h g a _)]
    exact h ..

/-- Preservation of a `modifySp`-stable observation by `propagateOwner`. -/
theorem Grid.obs_propagateOwner {β : Type} (O : Grid → β)
    (h : ∀ g p f, O (g.modifySp p f) = O g) (g : Grid) (l : List Pos) :
    O (propagateOwner g l) = O g := by
  unfold propagateOwner
  cases l.find? (fun q => match (g.sp q).owner with
      | some o => (g.sp o).is_seed
      | none => false) with
  | none => rfl
  | some q =>
    refine foldl_obs_pres O _ (fun g' a => ?_) _ g
    by_cases hc : (g'.sp a).owner ≠ some (((g.sp q).owner).getD q)
    · rw [if_pos hc]
      exact Grid.obs_set_owner O h ..
    · rw [if_neg hc]

set_option maxHeartbeats 1600000 in
/-- Preservation of a `modifySp`-stable observation by `find_group`'s grid
effects (both the ownership propagation and the dof promotion are
`modifySp` compositions). -/
theorem Grid.obs_find_group {β : Type} (O : Grid → β)
    (h : ∀ g p f, O (g.modifySp p f) = O g) (g : Grid) (p : Pos)
    (infer remember : Bool) :
    O (find_group g p infer remember).2 = O g := by
  unfold find_group
  by_cases h1 : ¬ infer = true ∧ g.state p = BLANK
  · rw [if_pos h1]
  · rw [if_neg h1]
    by_cases h2 : g.state p = WATER
    · rw [if_pos h2]
    · rw [if_neg h2]
      simp only
      split_ifs <;>
        simp only <;>
        first
          | rfl
          | exact Grid.obs_propagateOwner O h ..
          | exact foldl_obs_pres O _ (fun g' a => h g' a _) _ g
          | exact (foldl_obs_pres O _ (fun g' a => h g' a _) _ _).trans
              (Grid.obs_propagateOwner O h ..)

/-- Projection read-through for a `modifySp` whose function fixes the
projection. -/
theorem Grid.proj_modifySp {β : Type} (F : Space → β) (g : Grid) (p : Pos)
    (f : Space → Space) (hf : ∀ sp, F (f sp) = F sp) (q : Pos) :
    F ((g.modifySp p f).sp q) = F (g.sp q) := by
  rw [Grid.sp_modifySp]
  by_cases h : q = p ∧ p.2 < g.s.length ∧ p.1 < ((g.s[p.2]?).getD []).length
  · rw [if_pos h, hf, h.1]
  · rw [if_neg h]

theorem Grid.state_set_owner (g : Grid) (a b q : Pos) :
    ((g.set_owner a b).sp q).state = (g.sp q).state := by
  unfold Grid.set_owner
  refine (Grid.proj_modifySp Space.state _ _ _ ?_ q).trans
    (Grid.proj_modifySp Space.state _ _ _ ?_ q) <;> exact fun _ => rfl

theorem Grid.flag_set_owner (g : Grid) (a b q : Pos) :
    ((g.set_owner a b).sp q).flag = (g.sp q).flag := by
  unfold Grid.set_owner
  refine (Grid.proj_modifySp Space.flag _ _ _ ?_ q).trans
    (Grid.proj_modifySp Space.flag _ _ _ ?_ q) <;> exact fun _ => rfl

theorem Grid.state_forget_reachers (g : Grid) (p q : Pos) :
    ((g.forget_reachers p).sp q).state = (g.sp q).state := by
  unfold Grid.forget_reachers
  split
  · rw [Grid.proj_modifySp Space.state _ p
      (fun sq => { sq with reachers := none, owner := some p, owns := [p] }) (fun _ => rfl) q]
    exact foldl_obs_pres (fun g => (g.sp q).state)
      (fun acc r => acc.modifySp r
        (fun sq => { sq with owner := none, reachers := some [], owns := [] }))
      (fun g' a => Grid.proj_modifySp Space.state g' a
        (fun sq => { sq with owner := none, reachers := some [], owns := [] })
        (fun _ => rfl) q) _ g
  · rw [Grid.proj_modifySp Space.state _ p
      (fun sq => { sq with owns := [] }) (fun _ => rfl) q]
    rw [foldl_obs_pres (fun g => (g.sp q).state)
      (fun acc r => acc.modifySp r
        (fun sq => { sq with owner := none, reachers := some [], owns := [] }))
      (fun g' a => Grid.proj_modifySp Space.state g' a
        (fun sq => { sq with owner := none, reachers := some [], owns := [] })
        (fun _ => rfl) q)]
    rw [Grid.proj_modifySp Space.state _ p
      (fun sq => { sq with reachers := some [], owner := none }) (fun _ => rfl) q]

theorem Grid.state_propagateOwner (g : Grid) (l : List Pos) (q : Pos) :
    ((propagateOwner g l).sp q).state = (g.sp q).state := by
  unfold propagateOwner
  split
  · rfl
  · refine foldl_obs_pres (fun g => (g.sp q).state) _ (fun g' a => ?_) _ g
    split
    · exact Grid.state_set_owner ..
    · rfl

theorem Grid.flag_forget_reachers (g : Grid) (p q : Pos) :
    ((g.forget_reachers p).sp q).flag = (g.sp q).flag := by
  unfold Grid.forget_reachers
  split
  · rw [Grid.proj_modifySp Space.flag _ p
      (fun sq => { sq with reachers := none, owner := some p, owns := [p] }) (fun _ => rfl) q]
    exact foldl_obs_pres (fun g => (g.sp q).flag)
      (fun acc r => acc.modifySp r
        (fun sq => { sq with owner := none, reachers := some [], owns := [] }))
      (fun g' a => Grid.proj_modifySp Space.flag g' a
        (fun sq => { sq with owner := none, reachers := some [], owns := [] })
        (fun _ => rfl) q) _ g
  · rw [Grid.proj_modifySp Space.flag _ p
      (fun sq => { sq with owns := [] }) (fun _ => rfl) q]
    rw [foldl_obs_pres (fun g => (g.sp q).flag)
      (fun acc r => acc.modifySp r
        (fun sq => { sq with owner := none, reachers := some [], owns := [] }))
      (fun g' a => Grid.proj_modifySp Space.flag g' a
        (fun sq => { sq with owner := none, reachers := some [], owns := [] })
        (fun _ => rfl) q)]
    rw [Grid.proj_modifySp Space.flag _ p
      (fun sq => { sq with reachers := some [], owner := none }) (fun _ => rfl) q]

theorem Grid.flag_propagateOwner (g : Grid) (l : List Pos) (q : Pos) :
    ((propagateOwner g l).sp q).flag = (g.sp q).flag := by
  unfold propagateOwner
  split
  · rfl
  · refine foldl_obs_pres (fun g => (g.sp q).flag) _ (fun g' a => ?_) _ g
    split
    · exact Grid.flag_set_owner ..
    · rfl

set_option maxHeartbeats 1600000 in
/-- The grid returned by `find_group` is the input grid, an ownership
propagation over it (strict `remember` mode), or an `INFER` promotion of
some dof list over it (inferred mode). -/
theorem find_group_snd_cases (g : Grid) (p : Pos) (infer remember : Bool) :
    (find_group g p infer remember).2 = g ∨
    (infer = false ∧ ∃ l : List Pos, (find_group g p infer remember).2 = propagateOwner g l) ∨
    (infer = true ∧ ∃ l : List Pos, (find_group g p infer remember).2 =
      l.foldl (fun acc d => acc.modifySp d (fun sp => { sp with state := INFER })) g) := by
  unfold find_group
  by_cases h1 : ¬ infer = true ∧ g.state p = BLANK
  · rw [if_pos h1]
    exact Or.inl rfl
  · rw [if_neg h1]
    by_cases h2 : g.state p = WATER
    · rw [if_pos h2]
      exact Or.inl rfl
    · rw [if_neg h2]
      simp only
      generalize (islandCrawl g infer (g.rows * g.cols + 1) [p] [p]
        { spaces := if g.state p = BLANK then [] else [p]
          dofs := if g.state p = BLANK then [p] else []
          walls := []
          numbers := if (g.sp p).is_seed = true then [p] else []
          type := GType.INCOMPLETE
          inferred := infer }).1 = grpA
      split_ifs <;>
        first
          | exact Or.inl rfl
          | exact Or.inr (Or.inl ⟨by simp_all, _, rfl⟩)
          | exact Or.inr (Or.inr ⟨by simp_all, _, rfl⟩)
          | simp_all

/-- Strict-mode `find_group` never changes a cell state (only inferred mode
promotes dofs). -/
theorem Grid.state_find_group_strict (g : Grid) (p : Pos) (remember : Bool) (q : Pos) :
    ((find_group g p false remember).2.sp q).state = (g.sp q).state := by
  rcases find_group_snd_cases g p false remember with h | ⟨_, l, h⟩ | ⟨hinf, _⟩
  · rw [h]
  · rw [h]; exact Grid.state_propagateOwner ..
  · exact absurd hinf (by simp)

/-- `find_group` never touches the `flag` attribute. -/
theorem Grid.flag_find_group (g : Grid) (p : Pos) (infer remember : Bool) (q : Pos) :
    ((find_group g p infer remember).2.sp q).flag = (g.sp q).flag := by
  rcases find_group_snd_cases g p infer remember with h | ⟨_, l, h⟩ | ⟨_, l, h⟩
  · rw [h]
  · rw [h]; exact Grid.flag_propagateOwner ..
  · rw [h]
    exact foldl_obs_pres (fun g => (g.sp q).flag)
      (fun acc d => acc.modifySp d (fun sp => { sp with state := INFER }))
      (fun g' a => Grid.proj_modifySp Space.flag g' a
        (fun sp => { sp with state := INFER }) (fun _ => rfl) q) _ g


/-! ## Well-formed dimensions and `alter`-level lemmas -/

/-- The space matrix really is `rows × cols`. -/
def Grid.wfDims (g : Grid) : Prop :=
  g.s.length = g.rows ∧ ∀ i, i < g.rows → ((g.s[i]?).getD []).length = g.cols

theorem Grid.rowLen_eq_rowLens (g : Grid) (i : Nat) :
    ((g.s[i]?).getD []).length = ((g.rowLens[i]?).getD 0) := by
  unfold Grid.rowLens
  rw [List.getElem?_map]
  cases g.s[i]? <;> rfl

/-- Transport well-formedness along frame and row-length preservation. -/
theorem Grid.wfDims_transport (g g' : Grid) (hf : g'.frame = g.frame)
    (hr : g'.rowLens = g.rowLens) (h : g.wfDims) : g'.wfDims := by
  obtain ⟨h1, h2⟩ := h
  have hrows : g'.rows = g.rows := congrArg (fun t => t.1) hf
  have hcols : g'.cols = g.cols := congrArg (fun t => t.2.1) hf
  have hlen : g'.s.length = g.s.length := congrArg (fun t => t.2.2.1) hf
  constructor
  · rw [hlen, hrows]; exact h1
  · intro i hi
    rw [Grid.rowLen_eq_rowLens, hr, ← Grid.rowLen_eq_rowLens, hcols]
    exact h2 i (by rw [hrows] at hi; exact hi)

/-- `forget_group` folds are the identity (the cache is not modelled). -/
theorem forget_group_foldl (l : List Pos) (g : Grid) :
    l.foldl Grid.forget_group g = g := by
  induction l with
  | nil => rfl
  | cons a l ih => rw [List.foldl_cons]; exact ih

/-- The queue update of `alter` happens in both branches. -/
theorem alter_q (st : St) (p : Pos) (s : Int) (o : Option Pos) :
    (alter st p s o).q = qput ((st.grid.nbrs p).foldl qput st.q) p := by
  unfold alter
  split <;> rfl

/-- The controller flag is never changed by `alter`. -/
theorem alter_controller (st : St) (p : Pos) (s : Int) (o : Option Pos) :
    (alter st p s o).controller = st.controller := by
  unfold alter
  split <;> rfl

set_option maxHeartbeats 1600000 in
/-- Any `modifySp`-stable observation of the grid survives the ownership
step of `alter`. -/
theorem alterOwner_obs {β : Type} (O : Grid → β)
    (h : ∀ g p f, O (g.modifySp p f) = O g) (g : Grid) (p : Pos) (s : Int)
    (o : Option Pos) : O (alterOwner g p s o) = O g := by
  unfold alterOwner
  dsimp only
  repeat' split
  all_goals
    first
      | rfl
      | exact Grid.obs_set_owner O h ..
      | exact Grid.obs_find_group O h ..
      | exact (Grid.obs_set_owner O h ..).trans (Grid.obs_find_group O h ..)
      | exact (foldl_obs_pres O _ (fun g' a => Grid.obs_set_owner O h ..) _ _).trans
          (Grid.obs_find_group O h ..)

set_option maxHeartbeats 1600000 in
/-- Observation preservation through the ownership step of `alter`, for
observations stable under `set_owner` and strict `find_group`. -/
theorem alterOwner_obs2 {β : Type} (O : Grid → β)
    (hso : ∀ g a b, O (g.set_owner a b) = O g)
    (hfg : ∀ g p r, O (find_group g p false r).2 = O g)
    (g : Grid) (p : Pos) (s : Int) (o : Option Pos) :
    O (alterOwner g p s o) = O g := by
  unfold alterOwner
  dsimp only
  repeat' split
  all_goals
    first
      | rfl
      | exact hso ..
      | exact hfg ..
      | exact (hso ..).trans (hfg ..)
      | exact (foldl_obs_pres O _ (fun g' a => hso ..) _ _).trans (hfg ..)

/-- The ownership step of `alter` never changes a cell state. -/
theorem alterOwner_state (g : Grid) (p : Pos) (s : Int) (o : Option Pos) (q : Pos) :
    (alterOwner g p s o).state q = g.state q :=
  alterOwner_obs2 (fun g => g.state q)
    (fun g a b => Grid.state_set_owner g a b q)
    (fun g p r => Grid.state_find_group_strict g p r q) g p s o

/-- The ownership step of `alter` never changes a cell flag. -/
theorem alterOwner_flag (g : Grid) (p : Pos) (s : Int) (o : Option Pos) (q : Pos) :
    ((alterOwner g p s o).sp q).flag = (g.sp q).flag :=
  alterOwner_obs2 (fun g => (g.sp q).flag)
    (fun g a b => Grid.flag_set_owner g a b q)
    (fun g p r => Grid.flag_find_group g p false r q) g p s o

/-- Any `modifySp`-stable observation of the grid survives `alter`. -/
theorem alter_obs {β : Type} (O : Grid → β)
    (h : ∀ g p f, O (g.modifySp p f) = O g) (st : St) (p : Pos) (s : Int)
    (o : Option Pos) : O (alter st p s o).grid = O st.grid := by
  unfold alter
  split
  · rfl
  · simp only [forget_group_foldl, Grid.forget_group]
    refine (alterOwner_obs O h ..).trans ?_
    split
    · exact h ..
    · rfl

theorem alter_frame (st : St) (p : Pos) (s : Int) (o : Option Pos) :
    (alter st p s o).grid.frame = st.grid.frame :=
  alter_obs Grid.frame (fun g p f => Grid.frame_modifySp g p f) st p s o

theorem alter_rowLens (st : St) (p : Pos) (s : Int) (o : Option Pos) :
    (alter st p s o).grid.rowLens = st.grid.rowLens :=
  alter_obs Grid.rowLens (fun g p f => Grid.rowLens_modifySp g p f) st p s o

theorem alter_wfDims (st : St) (p : Pos) (s : Int) (o : Option Pos)
    (h : st.grid.wfDims) : (alter st p s o).grid.wfDims :=
  Grid.wfDims_transport _ _ (alter_frame ..) (alter_rowLens ..) h

/-- After a state-changing `alter` on an in-range cell, the cell holds the
new state (the ownership bookkeeping never touches states in strict
mode). -/
theorem alter_state_self (st : St) (p : Pos) (s : Int) (o : Option Pos)
    (hwf : st.grid.wfDims) (hx : p.1 < st.grid.cols) (hy : p.2 < st.grid.rows)
    (hchg : st.grid.state p ≠ s) :
    (alter st p s o).grid.state p = s := by
  have hrange : p.2 < st.grid.s.length ∧ p.1 < ((st.grid.s[p.2]?).getD []).length := by
    refine ⟨by rw [hwf.1]; exact hy, ?_⟩
    rw [hwf.2 p.2 hy]; exact hx
  unfold alter
  rw [if_neg (by intro hcon; exact hchg hcon.1)]
  simp only [forget_group_foldl, Grid.forget_group]
  rw [alterOwner_state]
  rw [if_pos hchg]
  unfold Grid.state
  rw [Grid.sp_modifySp, if_pos ⟨rfl, hrange.1, hrange.2⟩]


/-! ## C4: event emission by `alter` -/

/-- A 2×2 all-blank solving state with an attached controller. -/
def c4St : St :=
  { grid := { Grid.ofBoard 2 2 [[0, 0], [0, 0]] with solving := true }
    q := []
    events := []
    controller := true }

/-- C4 counterexample.  The claim says a state-changing `alter` call emits
*exactly one* change event.  In the source the `controller.queueChange`
call sits inside the `for n in space.neighbors` loop, so this changing call
on a corner cell (two neighbours) emits two copies of the event. -/
theorem c4_counterexample :
    c4St.grid.state (0, 0) ≠ WATER ∧ c4St.controller = true ∧
    c4St.grid.solving = true ∧
    (alter c4St (0, 0) WATER none).events.length = 2 ∧
    (alter c4St (0, 0) WATER none).events ≠ [((0 : Nat), (0 : Nat), WATER)] := by
  decide

/-- C4 amended: while a consumer is attached and `solving` is true, a
state-changing `alter` emits one change event *per neighbour* of the cell
(`len(neighbors)` copies of `(x, y, newState)`, i.e. 2–4 on grids with at
least two rows and columns), appended to the stream after the state update;
the cell and its neighbours are enqueued at function entry (before the
state update), and every call only appends to the event stream, so
consumers do observe blocks of events in application order. -/
theorem c4_theorem (st : St) (p : Pos) (s : Int) (o : Option Pos)
    (hwf : st.grid.wfDims) (hx : p.1 < st.grid.cols) (hy : p.2 < st.grid.rows)
    (hchg : st.grid.state p ≠ s)
    (hc : st.controller = true) (hs : st.grid.solving = true) :
    (alter st p s o).events =
      st.events ++ List.replicate (st.grid.nbrs p).length (p.1, p.2, s) ∧
    (alter st p s o).grid.state p = s ∧
    (alter st p s o).q = qput ((st.grid.nbrs p).foldl qput st.q) p ∧
    (∀ (st1 : St) (p1 : Pos) (s1 : Int) (o1 : Option Pos), ∃ tl,
      (alter st1 p1 s1 o1).events = st1.events ++ tl) := by
  refine ⟨?_, alter_state_self st p s o hwf hx hy hchg, alter_q st p s o, ?_⟩
  · unfold alter
    rw [if_neg (by intro hcon; exact hchg hcon.1)]
    show (if st.controller ∧ st.grid.solving then
        st.events ++ (st.grid.nbrs p).map (fun _ => (p.1, p.2, s))
      else st.events) = _
    rw [if_pos ⟨by rw [hc], by rw [hs]⟩]
    congr 1
    exact List.map_const' _ _
  · intro st1 p1 s1 o1
    unfold alter
    split
    · exact ⟨[], by simp⟩
    · show (∃ tl, (if st1.controller ∧ st1.grid.solving then
        st1.events ++ (st1.grid.nbrs p1).map (fun _ => (p1.1, p1.2, s1))
      else st1.events) = st1.events ++ tl)
      split
      · exact ⟨_, rfl⟩
      · exact ⟨[], by simp⟩

/-- Witness for `c4_theorem` at the concrete 2×2 solving state. -/
theorem c4_theorem_witness :
    (alter c4St (0, 0) WATER none).events =
      c4St.events ++ List.replicate (c4St.grid.nbrs (0, 0)).length
        ((0 : Nat), (0 : Nat), WATER) ∧
    (alter c4St (0, 0) WATER none).grid.state (0, 0) = WATER := by
  have h := c4_theorem c4St (0, 0) WATER none (by constructor <;> decide)
    (by decide) (by decide) (by decide) (by decide) (by decide)
  exact ⟨h.1, h.2.1⟩


/-! ## C2: snapshot / restore round trip -/

theorem Grid.mem_allPos (g : Grid) (q : Pos) :
    q ∈ g.allPos ↔ q.1 < g.cols ∧ q.2 < g.rows := by
  unfold Grid.allPos
  simp only [List.mem_flatMap, List.mem_map, List.mem_range]
  constructor
  · rintro ⟨y, hy, x, hx, hq⟩
    rw [← hq]
    exact ⟨hx, hy⟩
  · rintro ⟨h1, h2⟩
    exact ⟨q.2, h2, q.1, h1, rfl⟩

theorem resetCell_frame (old : Game) (st : St) (p : Pos) :
    (resetCell old st p).grid.frame = st.grid.frame := by
  unfold resetCell
  simp only [Grid.forget_group]
  rw [Grid.obs_forget_reachers Grid.frame (fun g p f => Grid.frame_modifySp g p f)]
  split
  · exact Grid.frame_modifySp ..
  · rfl

theorem resetCell_rowLens (old : Game) (st : St) (p : Pos) :
    (resetCell old st p).grid.rowLens = st.grid.rowLens := by
  unfold resetCell
  simp only [Grid.forget_group]
  rw [Grid.obs_forget_reachers Grid.rowLens (fun g p f => Grid.rowLens_modifySp g p f)]
  split
  · exact Grid.rowLens_modifySp ..
  · rfl

theorem resetCell_state_self (old : Game) (st : St) (p : Pos)
    (hwf : st.grid.wfDims) (hx : p.1 < st.grid.cols) (hy : p.2 < st.grid.rows) :
    (resetCell old st p).grid.state p = boardGet old.board p.1 p.2 := by
  have hrange : p.2 < st.grid.s.length ∧ p.1 < ((st.grid.s[p.2]?).getD []).length := by
    refine ⟨by rw [hwf.1]; exact hy, ?_⟩
    rw [hwf.2 p.2 hy]; exact hx
  unfold resetCell
  simp only [Grid.forget_group]
  unfold Grid.state
  rw [Grid.state_forget_reachers]
  split
  · show ((st.grid.modifySp p _).sp p).state = _
    have := Grid.sp_modifySp st.grid p p
      (fun sp => { sp with state := boardGet old.board p.1 p.2 })
    rw [this, if_pos ⟨rfl, hrange.1, hrange.2⟩]
  · next h => exact not_ne_iff.mp h

theorem resetCell_state_ne (old : Game) (st : St) (p q : Pos) (h : q ≠ p) :
    (resetCell old st p).grid.state q = st.grid.state q := by
  unfold resetCell
  simp only [Grid.forget_group]
  unfold Grid.state
  rw [Grid.state_forget_reachers]
  split
  · show ((st.grid.modifySp p _).sp q).state = _
    rw [Grid.sp_modifySp_ne _ _ _ _ h]
  · rfl

/-- What a fold of `resetCell` does to cell states: every visited in-range
cell is restored from the snapshot, every other cell is untouched. -/
theorem foldl_resetCell_state (old : Game) :
    ∀ (l : List Pos) (st : St), st.grid.wfDims →
    (∀ q ∈ l, q.1 < st.grid.cols ∧ q.2 < st.grid.rows) →
    ∀ p, (l.foldl (resetCell old) st).grid.state p =
      if p ∈ l then boardGet old.board p.1 p.2 else st.grid.state p := by
  intro l
  induction l with
  | nil => intro st hwf hb p; simp
  | cons a l ih =>
    intro st hwf hb p
    rw [List.foldl_cons]
    have hfr : (resetCell old st a).grid.frame = st.grid.frame := resetCell_frame ..
    have hcols : (resetCell old st a).grid.cols = st.grid.cols :=
      congrArg (fun t => t.2.1) hfr
    have hrows : (resetCell old st a).grid.rows = st.grid.rows :=
      congrArg (fun t => t.1) hfr
    have hwf1 : (resetCell old st a).grid.wfDims :=
      Grid.wfDims_transport _ _ hfr (resetCell_rowLens ..) hwf
    have hb1 : ∀ q ∈ l, q.1 < (resetCell old st a).grid.cols ∧
        q.2 < (resetCell old st a).grid.rows := by
      intro q hq
      rw [hcols, hrows]
      exact hb q (List.mem_cons_of_mem _ hq)
    rw [ih (resetCell old st a) hwf1 hb1 p]
    by_cases hpl : p ∈ l
    · rw [if_pos hpl, if_pos (List.mem_cons_of_mem _ hpl)]
    · rw [if_neg hpl]
      by_cases hpa : p = a
      · subst hpa
        rw [if_pos (List.mem_cons_self _ _)]
        exact resetCell_state_self old st p hwf (hb p (List.mem_cons_self _ _)).1
          (hb p (List.mem_cons_self _ _)).2
      · rw [if_neg (by simp [hpa, hpl])]
        exact resetCell_state_ne old st a p hpa

theorem boardGet_save_game (g : Grid) (p : Pos) (hx : p.1 < g.cols)
    (hy : p.2 < g.rows) : boardGet (save_game g).board p.1 p.2 = g.state p := by
  unfold boardGet save_game
  rw [List.getElem?_map, List.getElem?_range hy]
  show ((((List.range g.cols).map (fun x => g.state (x, p.2)))[p.1]?).getD BLANK) = _
  rw [List.getElem?_map, List.getElem?_range hx]
  rfl

/-- C2: take a snapshot with `save_game`, apply *any* finite sequence of
`alter` calls, restore with `reset_game`: every in-range cell holds its
snapshot state again (`reset_game` rewrites every cell from the saved
board, and `alter` never changes the grid's dimensions). -/
theorem c2_theorem (st : St) (hwf : st.grid.wfDims)
    (calls : List (Pos × Int × Option Pos)) (p : Pos)
    (hx : p.1 < st.grid.cols) (hy : p.2 < st.grid.rows) :
    (reset_game (calls.foldl (fun acc c => alter acc c.1 c.2.1 c.2.2) st)
        (save_game st.grid)).grid.state p = st.grid.state p := by
  have hframe : (calls.foldl (fun acc c => alter acc c.1 c.2.1 c.2.2) st).grid.frame
      = st.grid.frame :=
    foldl_pres_prop (fun s => s.grid.frame = st.grid.frame) _
      (fun s c hs => (alter_frame s c.1 c.2.1 c.2.2).trans hs) calls st rfl
  have hrowl : (calls.foldl (fun acc c => alter acc c.1 c.2.1 c.2.2) st).grid.rowLens
      = st.grid.rowLens :=
    foldl_pres_prop (fun s => s.grid.rowLens = st.grid.rowLens) _
      (fun s c hs => (alter_rowLens s c.1 c.2.1 c.2.2).trans hs) calls st rfl
  have hwfA : (calls.foldl (fun acc c => alter acc c.1 c.2.1 c.2.2) st).grid.wfDims :=
    Grid.wfDims_transport _ _ hframe hrowl hwf
  have hcols : (calls.foldl (fun acc c => alter acc c.1 c.2.1 c.2.2) st).grid.cols
      = st.grid.cols := congrArg (fun t => t.2.1) hframe
  have hrows : (calls.foldl (fun acc c => alter acc c.1 c.2.1 c.2.2) st).grid.rows
      = st.grid.rows := congrArg (fun t => t.1) hframe
  unfold reset_game
  rw [foldl_resetCell_state (save_game st.grid) _ _ hwfA
    (fun q hq => (Grid.mem_allPos _ q).mp hq) p]
  rw [if_pos ((Grid.mem_allPos _ p).mpr ⟨by rw [hcols]; exact hx, by rw [hrows]; exact hy⟩)]
  exact boardGet_save_game st.grid p hx hy

/-- Witness for `c2_theorem`: a concrete 2×2 grid, one `alter`, restored. -/
theorem c2_theorem_witness :
    (reset_game ([((0, 0), WATER, none)].foldl
        (fun acc c => alter acc c.1 c.2.1 c.2.2) c4St)
      (save_game c4St.grid)).grid.state (0, 0) = c4St.grid.state (0, 0) :=
  c2_theorem c4St (by constructor <;> decide) [((0, 0), WATER, none)] (0, 0)
    (by decide) (by decide)


/-! ## `common_blanks` and `chain` -/

/-- `Grid.common_blanks`: blanks bordered by all the given spaces (only the
cases of one or two spaces are meaningful; the two-space case is a set
intersection in the source, modelled as a filtered list in the first
list's order). -/
def Grid.common_blanks (g : Grid) (spaces : List Pos) : List Pos :=
  match spaces with
  | [] => []
  | [a] => g.nbrs a
  | [a, b] =>
    let one := (g.nbrs a).filter (fun n => g.state n == BLANK)
    let two := (g.nbrs b).filter (fun n => g.state n == BLANK)
    one.filter (fun n => n ∈ two)
  | _ => []

/-- `Grid.chain`: walk from `this` towards `goal` through blank / infer
cells with `left` remaining budget, appending every found chain (the list
of *blank* cells used) to `chains`.  A cell adjacent to an island of any
seed aborts the branch.  The recursion decreases `left` by one each step,
so fuel `left.toNat + 1` reproduces the source in full. -/
def Grid.chain (g : Grid) :
    Nat → Pos → Pos → Int → List Pos → List (List Pos) → List (List Pos)
  | 0, _, _, _, _, chains => chains
  | fuel + 1, this, goal, left, used, chains =>
    if this = goal then chains ++ [used]
    else if left < dist this goal then chains
    else if (g.nbrs this).any (fun n => g.state n == ISLAND || g.state n > 0) then chains
    else
      (g.nbrs this).foldl (fun acc n =>
        if g.state n = BLANK ∨ g.state n = INFER then
          if g.state this = BLANK then
            g.chain fuel n goal (left - 1) (used ++ [this]) acc
          else
            g.chain fuel n goal (left - 1) used acc
        else acc) chains

/-! ## `calculate_groups` and `calculate_reachers`

The source caches every computed group on its member spaces; within one
`calculate_reachers` run this cache is what `space.group` reads.  It is
modelled as an explicit association list built by the same sweep. -/

def gmLookup (m : List (Pos × Group)) (p : Pos) : Option Group :=
  (m.find? (fun e => e.1 == p)).map (fun e => e.2)

/-- `Grid.calculate_groups`: give every space a (strict-mode, here) group,
sweeping in scan order and skipping spaces already covered by an earlier
group.  Returns the grid (ownership propagation mutates it) and the
group map. -/
def calcGroupsStep (infer : Bool) (acc : Grid × List (Pos × Group)) (p : Pos) :
    Grid × List (Pos × Group) :=
  if (gmLookup acc.2 p).isSome then acc
  else
    match find_group acc.1 p infer true with
    | (some grp, g') => (g', acc.2 ++ grp.spaces.map (fun s => (s, grp)))
    | (none, g') => (g', acc.2)

def Grid.calculate_groups (g : Grid) (infer : Bool) : Grid × List (Pos × Group) :=
  g.allPos.foldl (calcGroupsStep infer) (g, [])

/-- The bounded BFS `reaches(group, start_depth)` nested inside
`calculate_reachers`: breadth-first from the group's dofs, budget
`start_depth`, through cells that are blank or owned by the group's seed,
stopping at cells owned by other seeds and never crossing a cell that
borders an island owned by another seed.  The source's queue holds
`(space, depth)` pairs with uniqueness on the *pair*, and tags a space only
when dequeued, so a space can be processed at several depths (and can then
appear several times in the result — reproduced faithfully). -/
def reachesLoop (g : Grid) (num0 : Pos) :
    Nat → List (Pos × Int) → List Pos → List Pos → List Pos
  | 0, _, _, can_reach => can_reach
  | _ + 1, [], _, can_reach => can_reach
  | fuel + 1, (space, depth) :: q, tagged, can_reach =>
    let tagged := space :: tagged
    if depth ≤ 0 then reachesLoop g num0 fuel q tagged can_reach
    else if (g.sp space).owner ≠ none ∧ (g.sp space).owner ≠ some num0 then
      reachesLoop g num0 fuel q tagged can_reach
    else
      let clash := (g.nbrs space).any (fun n =>
        (g.sp n).is_island && ((g.sp n).owner ≠ none : Bool) &&
        ((g.sp n).owner ≠ some num0 : Bool))
      let q' := (g.nbrs space).foldl (fun acc n =>
        if (g.sp n).is_island ∧ (g.sp n).owner ≠ none ∧ (g.sp n).owner ≠ some num0 then
          acc
        else if n ∈ tagged then acc
        else if (n, depth - 1) ∈ acc then acc else acc ++ [(n, depth - 1)]) q
      if ¬ clash ∧ (g.sp space).owner = none then
        reachesLoop g num0 fuel q' tagged (can_reach ++ [space])
      else
        reachesLoop g num0 fuel q' tagged can_reach

def reaches (g : Grid) (group : Group) (start_depth : Int) : List Pos :=
  let num0 := group.numbers.headD (0, 0)
  let q0 := group.dofs.foldl (fun acc d =>
    if ((d, start_depth) : Pos × Int) ∈ acc then acc else acc ++ [(d, start_depth)]) []
  reachesLoop g num0 ((g.rows * g.cols + 2) * (start_depth.toNat + 2) + 1) q0 [] []


instance : Inhabited Group := ⟨Group.start⟩

/-- Append a reacher to a space (`space.reachers.append(seed)`). -/
def appendReacher (g : Grid) (sp seed : Pos) : Grid :=
  g.modifySp sp (fun s => { s with reachers := some ((s.reachers.getD []) ++ [seed]) })

/-- The first scan of `calculate_reachers`: wipe the reacher list of every
unowned space, and collect, per owning seed, the queue of groups to chain
(the seed's own group first, then every lone-island group attributed to
it).  The source's `queue.put` uniqueness is value-based here, which
coincides with the source's object identity because a group is determined
by its member positions within one sweep.  (The source also overwrites the
cached lone group's `numbers` with `[owner]`; that field is never read
afterwards and is not modelled.) -/
def crPrepStep (gm : List (Pos × Group)) (acc : Grid × List (Pos × List Group))
    (p : Pos) : Grid × List (Pos × List Group) :=
  let g := acc.1
  let g1 := if (g.sp p).owner = none then
      g.modifySp p (fun sp => { sp with reachers := some [] }) else g
  let chm := acc.2
  match gmLookup gm p, (g1.sp p).owner with
  | some grp, some ow =>
    if grp.type = GType.LONE_ISLAND ∧ (g1.sp ow).is_seed then
      match chm.find? (fun e => e.1 == ow) with
      | some _ =>
        (g1, chm.map (fun e => if e.1 == ow then
            (e.1, if grp ∈ e.2 then e.2 else e.2 ++ [grp]) else e))
      | none =>
        let q0 := match gmLookup gm ow with
          | some og => [og]
          | none => []
        (g1, chm ++ [(ow, if grp ∈ q0 then q0 else q0 ++ [grp])])
    else (g1, chm)
  | _, _ => (g1, chm)

/-- Log the result of a `reaches` run: append the seed to the reacher list
of every returned space, in order (duplicates preserved, as in the
source). -/
def logReaches (g : Grid) (seed : Pos) (can_reach : List Pos) : Grid :=
  can_reach.foldl (fun acc sp => appendReacher acc sp seed) g

/-- The fallback of a chainer seed (also the plain path of a seed without
separated islands): breadth-first reaches from the seed's cached group. -/
def seedReachesFallback (gm : List (Pos × Group)) (g : Grid) (seed : Pos) : Grid :=
  match gmLookup gm seed with
  | some grp => logReaches g seed (reaches g grp ((g.sp seed).state - grp.spaces.length))
  | none => g

/-- Chain enumeration between the first two queued groups of a chainer
seed (states of the seed's owned cells are already `INFER`). -/
def chainsOf (g : Grid) (groups : List Group) (left : Int) : List (List Pos) :=
  if left ≤ 6 then
    (groups.headD default).spaces.foldl (fun acc o =>
      (((groups.get? 1).getD default).spaces).foldl (fun acc2 t =>
        g.chain (left.toNat + 1) o t left [] acc2) acc) []
  else []

/-- Per-chain processing: pretend the chain is island, recompute the
seed's strict group, collect its reaches, then revert the chain cells to
blank and forget their reacher bookkeeping. -/
def perChain (seed : Pos) (acc : Grid × List (List Pos)) (ch : List Pos) :
    Grid × List (List Pos) :=
  let g := acc.1
  let g1 := ch.foldl (fun a c => a.modifySp c (fun s => { s with state := ISLAND })) g
  let res := find_group g1 seed false false
  let grp := res.1.getD default
  let cr := reaches res.2 grp ((res.2.sp seed).state - grp.spaces.length)
  let g2 := ch.foldl (fun a c =>
      (a.modifySp c (fun s => { s with state := BLANK })).forget_reachers c) res.2
  (g2, acc.2 ++ [cr])

/-- One chainer seed of `calculate_reachers` (source lines 434–491). -/
def crChainerStep (gm : List (Pos × Group)) (acc : Grid × List (Pos × Pos))
    (entry : Pos × List Group) : Grid × List (Pos × Pos) :=
  let g := acc.1
  let seed := entry.1
  let groups := entry.2
  let num := (g.sp seed).state
  let left := num - ((groups.headD default).spaces.length : Int)
    - ((((groups.get? 1).getD default).spaces.length : Int)) + 1
  if 2 < groups.length ∨ 6 < left then
    (seedReachesFallback gm g seed, acc.2)
  else
    let owns := (g.sp seed).owns
    let g1 := owns.foldl (fun a o => a.modifySp o (fun s => { s with state := INFER })) g
    let chains := chainsOf g1 groups left
    let g2 := owns.foldl (fun a o => a.modifySp o (fun s => { s with state := ISLAND })) g1
    let g3 := g2.modifySp seed (fun s => { s with state := num })
    let pc := chains.foldl (perChain seed) (g3, [])
    let g4 := pc.1
    let can_reaches := pc.2
    if chains = [] then
      (seedReachesFallback gm g4 seed, acc.2)
    else
      let actually := (chains.flatten ++ can_reaches.flatten).dedup
      let g5 := logReaches g4 seed actually
      let definite := ((chains.headD []).dedup).filter
        (fun c => chains.all (fun ch => c ∈ ch))
      (g5, acc.2 ++ definite.map (fun isle => (isle, seed)))

/-- `Grid.calculate_reachers` (source lines 368–492): recompute every
reacher list and return the chain-derived forced islands.  Set- and
dict-iteration orders of the source are arbitrary; this model iterates
seeds in the grid's seed order and chainers in first-encounter order,
which only permutes reacher lists (all reads are emptiness, sole-element
or membership tests). -/
def Grid.calculate_reachers (g : Grid) : Grid × List (Pos × Pos) :=
  let cg := g.calculate_groups false
  let gm := cg.2
  let prep := cg.1.allPos.foldl (crPrepStep gm) (cg.1, [])
  let g1 := prep.1
  let chm := prep.2
  let g2 := (g1.seeds.filter (fun sd => ¬ (chm.any (fun e => e.1 == sd)))).foldl
    (fun a sd => seedReachesFallback gm a sd) g1
  chm.foldl (crChainerStep gm) (g2, [])


/-! ## `from_good_pairs` -/

/-- `good_pair((x, y))`: the four cells of the 2×2 at `(x, y)` must be two
waters and two blanks, the two blanks must share the same sole reacher and
be orthogonally adjacent (same row or column). -/
def good_pair (g : Grid) (x y : Nat) : Option (Pos × Pos) :=
  let cells : List Pos := [(x, y), (x + 1, y), (x, y + 1), (x + 1, y + 1)]
  if cells.all (fun c => g.state c == WATER || g.state c == BLANK) then
    let waters := cells.filter (fun c => g.state c == WATER)
    let blanks := cells.filter (fun c => g.state c == BLANK)
    if waters.length = 2 ∧ blanks.length = 2 then
      let b1 := blanks.headD (0, 0)
      let b2 := (blanks.get? 1).getD (0, 0)
      let r1 := (g.sp b1).reachers.getD []
      let r2 := (g.sp b2).reachers.getD []
      if r1.length = 1 ∧ r2.length = 1 ∧ r1.headD (0, 0) = r2.headD (0, 0) then
        if b1.1 = b2.1 ∨ b1.2 = b2.2 then some (b1, b2) else none
      else none
    else none
  else none

/-- One good pair (source lines 519–555): chain from the common sole
reacher to both blanks; cells in every chain of one blank, or lying in the
other blank's chain intersection, are forced islands. -/
def goodPairAt (acc : Grid × List (Pos × Pos)) (x y : Nat) : Grid × List (Pos × Pos) :=
  let g := acc.1
  match good_pair g x y with
  | none => acc
  | some (b1, b2) =>
    let seed := ((g.sp b1).reachers.getD []).headD (0, 0)
    let res := find_group g seed false true
    let g0 := res.2
    let grp := res.1.getD default
    let left := (g0.sp seed).state - (grp.spaces.length : Int) + 1
    if 6 ≤ left then (g0, acc.2)
    else
      let num := (g0.sp seed).state
      let owns := (g0.sp seed).owns
      let g1 := owns.foldl (fun a o => a.modifySp o (fun s => { s with state := INFER })) g0
      let ov1 :=
        let chains := g1.chain (left.toNat + 1) seed b1 left [] []
        if chains.length ≠ 0 then
          ((chains.headD []).dedup).filter (fun c => chains.all (fun ch => c ∈ ch))
        else []
      let ov2 :=
        let chains := g1.chain (left.toNat + 1) seed b2 left [] []
        if chains.length ≠ 0 then
          ((chains.headD []).dedup).filter (fun c => chains.all (fun ch => c ∈ ch))
        else []
      let g2 := owns.foldl (fun a o => a.modifySp o (fun s => { s with state := ISLAND })) g1
      let g3 := g2.modifySp seed (fun s => { s with state := num })
      let necessary := (ov1.filter (fun c => c ∈ ov2)) ++
        (if b1 ∈ ov2 then [b1] else []) ++ (if b2 ∈ ov1 then [b2] else [])
      (g3, acc.2 ++ necessary.map (fun isle => (isle, seed)))

/-- `Grid.from_good_pairs` (source lines 494–557). -/
def Grid.from_good_pairs (g : Grid) : Grid × List (Pos × Pos) :=
  ((List.range (g.rows - 1)).flatMap (fun y =>
      (List.range (g.cols - 1)).map (fun x => (x, y)))).foldl
    (fun acc c => goodPairAt acc c.1 c.2) (g, [])

/-! ## The propagator `process` and `process_all` -/

/-- The local rules applied to one dequeued cell (source lines 626–656). -/
def processCell (st : St) (this : Pos) : St :=
  if st.grid.state this = WATER then
    let res := find_group st.grid this false true
    let st := { st with grid := res.2 }
    match res.1 with
    | some grp =>
      if grp.dofs.length = 1 then
        if (grp.spaces.length : Int) < st.grid.target then
          alter st (grp.dofs.headD (0, 0)) WATER none
        else st
      else st
    | none => st
  else if (st.grid.sp this).is_island then
    let res := find_group st.grid this false true
    let st := { st with grid := res.2 }
    match res.1 with
    | some grp =>
      let left : Int := if grp.type = GType.LONE_ISLAND then 1
        else (st.grid.sp (grp.numbers.headD (0, 0))).state - grp.spaces.length
      if left = 0 then
        grp.dofs.foldl (fun a dof => alter a dof WATER none) st
      else if grp.dofs.length = 1 then
        alter st (grp.dofs.headD (0, 0)) ISLAND none
      else st
    | none => st
  else if st.grid.state this = BLANK then
    let shores := (st.grid.nbrs this).foldl (fun acc n =>
      match (st.grid.sp n).owner with
      | some ow => if (st.grid.sp n).is_island ∧ ow ∉ acc then acc ++ [ow] else acc
      | none => acc) []
    if 2 ≤ shores.length then alter st this WATER none else st
  else st

/-- `process` (source lines 618–656): drain the work queue with the local
rules, checking the cancellation flag before each pop.  Fuelled; the loop
terminates because every rule fires on a blank, but callers must pass
enough fuel (the theorems quantify over it). -/
def process (st : St) : Nat → St
  | 0 => st
  | fuel + 1 =>
    match st.q with
    | [] => st
    | this :: rest =>
      if ¬ st.grid.solving then st
      else process (processCell { st with q := rest } this) fuel

/-- The `INFER`-promotion scan at the top of the `process_all` body. -/
def promoteInfers (st : St) (changed : Bool) : St × Bool :=
  st.grid.allPos.foldl (fun acc p =>
    if acc.1.grid.state p = INFER then (alter acc.1 p ISLAND none, true) else acc)
    (st, changed)

/-- The unreachable-blank / adopt-sole-reacher scan of the `process_all`
body (source lines 678–690). -/
def reacherScan (st : St) (changed : Bool) : St × Bool :=
  st.grid.allPos.foldl (fun acc p =>
    let sp := acc.1.grid.sp p
    if sp.state = BLANK ∧ sp.owner = none ∧ (sp.reachers.getD []).isEmpty then
      (alter acc.1 p WATER none, true)
    else if sp.state = ISLAND ∧ sp.owner = none ∧ (sp.reachers.getD []).length = 1 then
      let reacher := (sp.reachers.getD []).headD (0, 0)
      if reacher ≠ p then (alter acc.1 p ISLAND (some reacher), true) else acc
    else acc) (st, changed)

/-- The anti-puddle scan (source lines 696–704): collect every blank whose
tentative watering would complete one of the four 2×2 squares around it;
the tentative mark is reverted before moving on. -/
def antipuddleScan (g : Grid) : List Pos :=
  g.allPos.foldl (fun acc p =>
    if g.state p = BLANK then
      let gw := g.modifySp p (fun s => { s with state := WATER })
      if gw.is_puddle p.1 p.2 || gw.is_puddle p.1 ((p.2 : Int) - 1) ||
         gw.is_puddle ((p.1 : Int) - 1) p.2 ||
         gw.is_puddle ((p.1 : Int) - 1) ((p.2 : Int) - 1) then
        acc ++ [p]
      else acc
    else acc) []

/-- The fork rule (source lines 716–722). -/
def forkScan (st : St) (changed : Bool) : St × Bool :=
  st.grid.seeds.foldl (fun acc seed =>
    let res := find_group acc.1.grid seed false true
    let st1 := { acc.1 with grid := res.2 }
    match res.1 with
    | some grp =>
      if (st1.grid.sp seed).state - (grp.spaces.length : Int) = 1 ∧
          grp.dofs.length = 2 then
        (st1.grid.common_blanks grp.dofs).foldl
          (fun a fork => (alter a.1 fork WATER none, true)) (st1, acc.2)
      else (st1, acc.2)
    | none => (st1, acc.2)) (st, changed)

/-- One body iteration of `process_all`'s fixed-point loop (source lines
662–724), returning the new state and the `changed` flag.  (`alter` always
returns `True` in the source, so `changed` records whether any rule
fired.) -/
def processAllBody (st : St) (fuel : Nat) : St × Bool :=
  let a1 := promoteInfers st false
  let cr := a1.1.grid.calculate_reachers
  let a2 := cr.2.foldl (fun acc io => (alter acc.1 io.1 ISLAND (some io.2), true))
    ({ a1.1 with grid := cr.1 }, a1.2)
  let a3 := reacherScan a2.1 a2.2
  let a4 := (process a3.1 fuel, a3.2)
  let aps := antipuddleScan a4.1.grid
  let a5 := aps.foldl (fun acc p => (alter acc.1 p ISLAND none, true)) (a4.1, a4.2)
  let gp := a5.1.grid.from_good_pairs
  let a6 := gp.2.foldl (fun acc io => (alter acc.1 io.1 ISLAND (some io.2), true))
    ({ a5.1 with grid := gp.1 }, a5.2)
  let a7 := forkScan a6.1 a6.2
  (process a7.1 fuel, a7.2)

/-- `process_all` (source lines 659–724): run the body until nothing fires
or the validator reports an error.  The `status` call in the loop guard
itself mutates the grid (infer promotion, ownership propagation) and is
threaded through. -/
def process_all (st : St) : Nat → Nat → St
  | _, 0 => st
  | fuel, wfuel + 1 =>
    let res := st.grid.status
    let st1 := { st with grid := res.2 }
    if res.1 = GameState.ERROR then st1
    else
      let b := processAllBody st1 fuel
      if b.2 then process_all b.1 fuel wfuel else b.1

/-- `process_all` enters its loop with `changed = True`, so the guard
(`changed and self.status() != ERROR`) is evaluated at least once. -/
def process_all_entry (st : St) (fuel wfuel : Nat) : St := process_all st fuel (wfuel + 1)


/-! ## Guessing -/

/-- `Guess = Enum(['CONCLUSIVE', 'DEADEND', 'INCONCLUSIVE', 'VICTORY',
'SKIPPED'])`. -/
inductive Guess where
  | CONCLUSIVE
  | DEADEND
  | INCONCLUSIVE
  | VICTORY
  | SKIPPED
deriving DecidableEq, Repr

/-- The trial order of `guess_single` / `guess_recur`: the cell's `flag`
hint picks which colour to try first; without a hint, island first. -/
def chooseTries (flag : Option Int) : Int × Int :=
  if flag = some WATER then (ISLAND, WATER)
  else if flag = some ISLAND then (WATER, ISLAND)
  else (ISLAND, WATER)

/-- Twice the `guess_score` of a blank.  The source's score is a float
built from integers and halves (`0.5 * |…|`), all exactly representable,
so twice the score is an integer and the float comparison used by `sorted`
coincides with the integer comparison.  (`10 / max(left, 1)` is Python 2
integer division.) -/
def guess_score2 (g : Grid) (space : Pos) : Int :=
  let base : Int := (g.nbrs space).foldl (fun acc n =>
    if g.state n = BLANK then acc - 5 else acc) 0
  let reach : Int := ((g.sp space).reachers.getD []).foldl (fun acc reacher =>
    let grp := (find_group g reacher false false).1.getD default
    let left := (g.sp reacher).state - (grp.spaces.length : Int)
    acc + 10 / (max left 1) - dist space reacher * 3) base
  2 * reach + ((space.1 : Int) - (g.cols / 2 : Nat)).natAbs
    + ((space.2 : Int) - (g.rows / 2 : Nat)).natAbs

/-- `guess_single` (source lines 743–795): try both colours on a blank,
propagate each, and cross the two validator outcomes. -/
def guess_single (st : St) (guessing : Pos) (fuel wfuel : Nat) : Guess × St :=
  if ¬ st.grid.solving then (Guess.DEADEND, st)
  else if st.grid.state guessing ≠ BLANK then (Guess.SKIPPED, st)
  else
    let save := save_game st.grid
    let tries := chooseTries (st.grid.sp guessing).flag
    let st1 := reset_game st save
    let st2 := alter st1 guessing tries.1 none
    let st3 := process_all_entry st2 fuel wfuel
    let res1 := st3.grid.status
    let st4 := { st3 with grid := res1.2 }
    if res1.1 = GameState.SOLVED then (Guess.VICTORY, st4)
    else
      let by_poe := res1.1 = GameState.ERROR
      let other := save_game st4.grid
      let st5 := reset_game st4 save
      let st6 := alter st5 guessing tries.2 none
      let st7 := process_all_entry st6 fuel wfuel
      let res2 := st7.grid.status
      let st8 := { st7 with grid := res2.2 }
      if res2.1 = GameState.SOLVED then (Guess.VICTORY, st8)
      else if res2.1 = GameState.ERROR then
        if by_poe then (Guess.DEADEND, reset_game st8 save)
        else (Guess.CONCLUSIVE, reset_game st8 other)
      else
        if by_poe then (Guess.CONCLUSIVE, st8)
        else (Guess.INCONCLUSIVE, reset_game st8 save)

/-- `guess_recur` (source lines 799–858): depth-first search over the
ordered blank queue.  Fuelled on the recursion depth. -/
def guess_recur (gq : List Pos) : St → Nat → Nat → Nat → Bool × St
  | st, _, _, 0 => (false, st)
  | st, index, fuel, rfuel + 1 =>
    if ¬ st.grid.solving then (false, st)
    else if gq.length = 0 then (false, st)
    else
      match (List.range gq.length).drop index |>.find?
          (fun i => st.grid.state (gq.getD i (0, 0)) == BLANK) with
      | none => (false, st)
      | some i =>
        let guessing := gq.getD i (0, 0)
        let save := save_game st.grid
        let tries := chooseTries (st.grid.sp guessing).flag
        let st1 := reset_game st save
        let st2 := alter st1 guessing tries.1 none
        let st3 := process_all_entry st2 fuel fuel
        let res1 := st3.grid.status
        let st4 := { st3 with grid := res1.2 }
        if res1.1 = GameState.SOLVED then (true, st4)
        else
          let deeper :=
            if res1.1 = GameState.OKAY then guess_recur gq st4 (i + 1) fuel rfuel
            else (false, st4)
          if deeper.1 then deeper
          else
            let st5 := deeper.2
            if ¬ st5.grid.solving then (false, st5)
            else
              let st6 := reset_game st5 save
              let st7 := alter st6 guessing tries.2 none
              let st8 := process_all_entry st7 fuel fuel
              let res2 := st8.grid.status
              let st9 := { st8 with grid := res2.2 }
              if res2.1 = GameState.SOLVED then (true, st9)
              else if res2.1 = GameState.OKAY then
                guess_recur gq st9 (i + 1) fuel rfuel
              else (false, st9)

/-- One pass of solve's depth-1 sweep (source lines 911–929): run
`guess_single` over the score-ordered blanks, counting conclusive cells;
`VICTORY` zeroes the count and breaks, `DEADEND` aborts the solve. -/
def sweepGuesses (fuel wfuel : Nat) : St → List Pos → Nat → St × Nat × Option Guess
  | st, [], cnt => (st, cnt, none)
  | st, gq :: rest, cnt =>
    let r := guess_single st gq fuel wfuel
    match r.1 with
    | Guess.VICTORY => (r.2, 0, some Guess.VICTORY)
    | Guess.DEADEND => (r.2, cnt, some Guess.DEADEND)
    | Guess.CONCLUSIVE => sweepGuesses fuel wfuel r.2 rest (cnt + 1)
    | _ => sweepGuesses fuel wfuel r.2 rest cnt

/-- Solve's phase A (source lines 906–929): re-run the sweep while at
least one cell was conclusive; a `DEADEND` sweep aborts with failure (the
source sets the controller status and returns), a `VICTORY` leaves the
loop. -/
def phaseA (fuel wfuel : Nat) : St → Nat → St × Option Guess
  | st, 0 => (st, none)
  | st, pfuel + 1 =>
    let gq := (st.grid.get_blanks).mergeSort
      (fun a b => guess_score2 st.grid b ≤ guess_score2 st.grid a)
    let r := sweepGuesses fuel wfuel st gq 0
    match r.2.2 with
    | some Guess.DEADEND => (r.1, some Guess.DEADEND)
    | some Guess.VICTORY => (r.1, some Guess.VICTORY)
    | _ => if 0 < r.2.1 then phaseA fuel wfuel r.1 pfuel else (r.1, none)


/-! ## Infrastructure for the propagation-stage theorems -/

theorem foldl_pres_prop_mem {α β : Type} (P : β → Prop) (f : β → α → β)
    (l : List α) (h : ∀ b a, a ∈ l → P b → P (f b a)) :
    ∀ b, P b → P (l.foldl f b) := by
  induction l with
  | nil => intro b hb; exact hb
  | cons a t ih =>
    intro b hb
    exact ih (fun b' a' ha' => h b' a' (List.mem_cons_of_mem _ ha'))
      _ (h b a (List.mem_cons_self _ _) hb)

/-- In-range positions of the space matrix (where a write lands). -/
def Grid.inRange (g : Grid) (q : Pos) : Prop :=
  q.2 < g.s.length ∧ q.1 < ((g.s[q.2]?).getD []).length

instance (g : Grid) (q : Pos) : Decidable (g.inRange q) := by
  unfold Grid.inRange; infer_instance

theorem Grid.sLength_setSp (g : Grid) (p : Pos) (a : Space) :
    (g.setSp p a).s.length = g.s.length := by
  simp [Grid.setSp]

theorem Grid.inRange_setSp (g : Grid) (p : Pos) (a : Space) (q : Pos) :
    (g.setSp p a).inRange q ↔ g.inRange q := by
  unfold Grid.inRange
  rw [Grid.sLength_setSp, Grid.rowLen_setSp]

theorem Grid.inRange_modifySp (g : Grid) (p : Pos) (f : Space → Space) (q : Pos) :
    (g.modifySp p f).inRange q ↔ g.inRange q := Grid.inRange_setSp ..

/-- Transport in-range along frame and row-length preservation. -/
theorem Grid.inRange_transport (g g' : Grid) (hf : g'.frame = g.frame)
    (hr : g'.rowLens = g.rowLens) (q : Pos) : g'.inRange q ↔ g.inRange q := by
  unfold Grid.inRange
  rw [Grid.rowLen_eq_rowLens, Grid.rowLen_eq_rowLens, hr]
  have hlen : g'.s.length = g.s.length := congrArg (fun t => t.2.2.1) hf
  rw [hlen]

/-- Read-back of a fold that overwrites the states of a list of cells with
a constant. -/
theorem state_foldl_setState (c : Int) (l : List Pos) (g : Grid) (q : Pos) :
    (l.foldl (fun a o => a.modifySp o (fun s => { s with state := c })) g).state q
      = if q ∈ l ∧ g.inRange q then c else g.state q := by
  induction l generalizing g with
  | nil => simp
  | cons a t ih =>
    rw [List.foldl_cons, ih]
    have hr : (g.modifySp a (fun s => { s with state := c })).inRange q ↔ g.inRange q :=
      Grid.inRange_modifySp ..
    have hread : (g.modifySp a (fun s => { s with state := c })).state q
        = if q = a ∧ g.inRange q then c else g.state q := by
      unfold Grid.state
      rw [Grid.sp_modifySp]
      by_cases hqa : q = a
      · subst hqa
        by_cases hin : g.inRange q
        · rw [if_pos ⟨rfl, hin.1, hin.2⟩, if_pos ⟨rfl, hin⟩]
        · rw [if_neg (fun hc => hin ⟨hc.2.1, hc.2.2⟩), if_neg (fun hc => hin hc.2)]
      · rw [if_neg (fun hc => hqa hc.1), if_neg (fun hc => hqa hc.1)]
    by_cases hin : g.inRange q
    · by_cases hmem : q ∈ t
      · rw [if_pos ⟨hmem, hr.mpr hin⟩, if_pos ⟨List.mem_cons_of_mem _ hmem, hin⟩]
      · rw [if_neg (fun hc => hmem hc.1), hread]
        by_cases hqa : q = a
        · rw [if_pos ⟨hqa, hin⟩, if_pos ⟨by rw [hqa]; exact List.mem_cons_self _ _, hin⟩]
        · rw [if_neg (fun hc => hqa hc.1)]
          rw [if_neg (fun hc => by
            rcases List.mem_cons.mp hc.1 with h | h
            · exact hqa h
            · exact hmem h)]
    · rw [if_neg (fun hc => hin (hr.mp hc.2)), hread,
        if_neg (fun hc => hin hc.2), if_neg (fun hc => hin hc.2)]
end Nrkb
